import Mathlib

/-!
# bleonly: connection and bonding event handler (src/app.c)

A shallow embedding of `src/app.c`.  The Bluetooth stack is an external
collaborator: every `sl_bt_*` call is recorded in a command log and answered by
a `Stack` that decides the returned status from the commands issued so far.
The four file-scope variables of `app.c` live in `AppState`.  Logging
(`app_log_mine`) has no effect on state or on the stack and is left out.
`BONDING_ENABLE` is 1 (src/app.h), so the conditional sections are included.
-/

namespace BleOnly

/-! ## Data model -/

/-- Constants of the vendor SDK headers that `app.c` names but that are not
part of the sources; they are taken as parameters. -/
structure Sdk where
  SL_STATUS_OK : Nat
  sm_io_capability_noinputnooutput : Nat
  sl_bt_advertiser_connectable_scannable : Nat
  deriving Repr

/-- The commands `app.c` sends to the stack, with their arguments.  For
`legacy_advertiser_set_data` the last argument is the `data_len` bytes the
stack reads through the data pointer. -/
inductive Cmd where
  | advertiser_create_set
  | legacy_advertiser_set_data (advertising_set type_ data_len : Nat) (data : List Nat)
  | advertiser_set_timing (advertising_set interval_min interval_max duration maxevents : Nat)
  | sm_configure (flags io_capabilities : Nat)
  | sm_set_bondable_mode (bondable : Nat)
  | sm_store_bonding_configuration (max_bonding_count policy_flags : Nat)
  | legacy_advertiser_start (advertising_set connection_mode : Nat)
  | sm_increase_security (connection : Nat)
  | sm_delete_bondings
  | sm_bonding_confirm (connection confirm : Nat)
  | sm_passkey_confirm (connection confirm : Nat)
  deriving DecidableEq, Repr

/-- The external stack: the status it returns for a command, given the
commands issued before it, and the handle `advertiser_create_set` writes. -/
structure Stack where
  status : List Cmd → Cmd → Nat
  created_set : List Cmd → Nat

/-- The file-scope variables of `app.c` (lines 39-45). -/
structure AppState where
  advertising_set_handle : Nat
  conn_handle : Nat
  bonding_pending : Bool
  bonding_delay_counter : Nat
  deriving DecidableEq, Repr

/-- The initialisers of the file-scope variables. -/
def AppState.init : AppState :=
  { advertising_set_handle := 0xff
    conn_handle := 0xFF
    bonding_pending := false
    bonding_delay_counter := 0 }

/-- Application variables together with the log of commands issued so far
(oldest first). -/
structure World where
  app : AppState
  log : List Cmd
  deriving DecidableEq, Repr

/-- The world at reset: initial variables, nothing issued. -/
def World.init : World := { app := AppState.init, log := [] }

/-- How a piece of code ends: normally with a value, halted by a failed
`app_assert_status`, or by a store outside a local buffer. -/
inductive Res (α : Type) where
  | ok (a : α)
  | halted
  | fault
  deriving DecidableEq, Repr

/-- Code of `app.c`: a function of the world that yields an ending and the
world it leaves. -/
def M (α : Type) : Type := World → Res α × World

/-- Return a value without touching the world. -/
def M.pure {α : Type} (a : α) : M α := fun w => (Res.ok a, w)

/-- Sequencing: what follows runs only when the first part ended normally. -/
def M.bind {α β : Type} (m : M α) (f : α → M β) : M β := fun w =>
  match m w with
  | (Res.ok a, w1) => f a w1
  | (Res.halted, w1) => (Res.halted, w1)
  | (Res.fault, w1) => (Res.fault, w1)

instance : Monad M where
  pure := M.pure
  bind := M.bind

/-- Send a command: it is appended to the log and the stack's status is
returned. -/
def command (stk : Stack) (c : Cmd) : M Nat := fun w =>
  (Res.ok (stk.status w.log c), { w with log := w.log ++ [c] })

/-- The call `sl_bt_advertiser_create_set(&advertising_set_handle)`: the stack
writes a one-byte handle through the pointer. -/
def sl_bt_advertiser_create_set (stk : Stack) : M Nat := fun w =>
  (Res.ok (stk.status w.log Cmd.advertiser_create_set),
   { app := { w.app with advertising_set_handle := stk.created_set w.log % 256 }
     log := w.log ++ [Cmd.advertiser_create_set] })

/-- Modelled from the spec: the SDK macro `app_assert_status` is not in the
sources; a non-success status "halts the process". -/
def app_assert_status (sdk : Sdk) (sc : Nat) : M Unit := fun w =>
  if sc = sdk.SL_STATUS_OK then (Res.ok (), w) else (Res.halted, w)

/-- Read the file-scope variables. -/
def getApp : M AppState := fun w => (Res.ok w.app, w)

/-- Update the file-scope variables. -/
def setApp (f : AppState → AppState) : M Unit := fun w =>
  (Res.ok (), { w with app := f w.app })

/-- The store `buf[i] = v` into a local array; outside the array it is a
fault. -/
def store (buf : List Nat) (i v : Nat) : M (List Nat) := fun w =>
  if i < buf.length then (Res.ok (buf.set i v), w) else (Res.fault, w)

/-- The call `memcpy(&buf[dst], src, n)`: `n` bytes of `src`, stored one by
one; reading past the source is a fault too. -/
def memcpy (buf : List Nat) (dst : Nat) (src : List Nat) : Nat → M (List Nat)
  | 0 => M.pure buf
  | n + 1 =>
    match src with
    | [] => fun w => (Res.fault, w)
    | b :: bs => M.bind (store buf dst b) (fun buf1 => memcpy buf1 (dst + 1) bs n)

/-- The length of a NUL-terminated byte string. -/
def strlen (s : List Nat) : Nat := (s.takeWhile (fun b => b != 0)).length

/-! ## Constants of app.c -/

def BONDING_DELAY_COUNT : Nat := 30

def SILABS_COMPANY_ID : Nat := 0x0077

def ADV_FLAG_NEEDS_PAIRING : Nat := 0x01

/-- The string literal `"fanbandble"` as the bytes of a C string. -/
def device_name : List Nat := "fanbandble".toList.map Char.toNat ++ [0]

/-! ## set_adv_data_with_mfg_data (app.c lines 56-86) -/

/-- The function `set_adv_data_with_mfg_data`.  The local `adv_data[31]` is
uninitialised in C; it starts as zeros here and only the `adv_len` bytes
written are handed to the stack. -/
def set_adv_data_with_mfg_data (sdk : Sdk) (stk : Stack) (custom_flags : Nat) : M Unit := do
  let adv_data : List Nat := List.replicate 31 0
  let adv_len : Nat := 0
  -- Flags
  let adv_data ← store adv_data adv_len 2
  let adv_len := adv_len + 1
  let adv_data ← store adv_data adv_len 0x01
  let adv_len := adv_len + 1
  let adv_data ← store adv_data adv_len 0x06
  let adv_len := adv_len + 1
  -- Complete Local Name
  let name_len : Nat := strlen device_name % 256
  let adv_data ← store adv_data adv_len ((name_len + 1) % 256)
  let adv_len := adv_len + 1
  let adv_data ← store adv_data adv_len 0x09
  let adv_len := adv_len + 1
  let adv_data ← memcpy adv_data adv_len device_name name_len
  let adv_len := adv_len + name_len
  -- Manufacturer Specific Data
  let adv_data ← store adv_data adv_len 4
  let adv_len := adv_len + 1
  let adv_data ← store adv_data adv_len 0xFF
  let adv_len := adv_len + 1
  let adv_data ← store adv_data adv_len ((SILABS_COMPANY_ID &&& 0xFF) % 256)
  let adv_len := adv_len + 1
  let adv_data ← store adv_data adv_len (((SILABS_COMPANY_ID >>> 8) &&& 0xFF) % 256)
  let adv_len := adv_len + 1
  let adv_data ← store adv_data adv_len custom_flags
  let adv_len := adv_len + 1
  let s ← getApp
  let sc ← command stk
    (Cmd.legacy_advertiser_set_data s.advertising_set_handle 0 adv_len (adv_data.take adv_len))
  app_assert_status sdk sc

/-! ## app_process_action (app.c lines 106-134) -/

/-- The periodic entry point `app_process_action`. -/
def app_process_action (sdk : Sdk) (stk : Stack) : M Unit := do
  let s ← getApp
  if s.bonding_pending then
    setApp (fun s => { s with bonding_delay_counter := (s.bonding_delay_counter + 1) % 4294967296 })
    let s ← getApp
    if s.bonding_delay_counter ≥ BONDING_DELAY_COUNT then
      let sc ← command stk (Cmd.sm_increase_security s.conn_handle)
      app_assert_status sdk sc
      setApp (fun s => { s with bonding_pending := false })

/-! ## sl_bt_on_event (app.c lines 142-288) -/

/-- The stack events `sl_bt_on_event` switches on, with the fields the handler
reads; `other` is any event identifier without a case of its own.  A field
holds the value of the C field (8-bit handles, 16-bit reasons); the handler
only copies it to a variable of the same width or compares it, so no
conversion takes place. -/
inductive Event where
  | system_boot
  | connection_opened (connection bonding : Nat)
  | connection_closed (reason : Nat)
  | sm_bonding_failed (connection reason : Nat)
  | sm_bonded (connection bonding security_mode : Nat)
  | sm_confirm_bonding (connection bonding_handle : Nat)
  | sm_confirm_passkey (connection passkey : Nat)
  | other (id : Nat)
  deriving DecidableEq, Repr

/-- The event handler `sl_bt_on_event`. -/
def sl_bt_on_event (sdk : Sdk) (stk : Stack) : Event → M Unit
  | Event.system_boot => do
    let sc ← sl_bt_advertiser_create_set stk
    app_assert_status sdk sc
    set_adv_data_with_mfg_data sdk stk 0x00
    let s ← getApp
    let sc ← command stk (Cmd.advertiser_set_timing s.advertising_set_handle 160 160 0 0)
    app_assert_status sdk sc
    let sc ← command stk (Cmd.sm_configure 0x00 sdk.sm_io_capability_noinputnooutput)
    app_assert_status sdk sc
    let sc ← command stk (Cmd.sm_set_bondable_mode 1)
    app_assert_status sdk sc
    let sc ← command stk (Cmd.sm_store_bonding_configuration 1 0x2)
    app_assert_status sdk sc
    let s ← getApp
    let sc ← command stk
      (Cmd.legacy_advertiser_start s.advertising_set_handle sdk.sl_bt_advertiser_connectable_scannable)
    app_assert_status sdk sc
  | Event.connection_opened connection _ => do
    setApp (fun s => { s with conn_handle := connection })
    setApp (fun s => { s with bonding_pending := true })
    setApp (fun s => { s with bonding_delay_counter := 0 })
  | Event.connection_closed _ => do
    set_adv_data_with_mfg_data sdk stk 0x00
    let s ← getApp
    let sc ← command stk
      (Cmd.legacy_advertiser_start s.advertising_set_handle sdk.sl_bt_advertiser_connectable_scannable)
    app_assert_status sdk sc
  | Event.sm_bonding_failed _ reason => do
    if reason = 0x1006 ∨ reason = 0x1208 ∨ reason = 0x1205 ∨ reason = 0x120B then
      let sc ← command stk Cmd.sm_delete_bondings
      app_assert_status sdk sc
    set_adv_data_with_mfg_data sdk stk ADV_FLAG_NEEDS_PAIRING
    let s ← getApp
    let sc ← command stk
      (Cmd.legacy_advertiser_start s.advertising_set_handle sdk.sl_bt_advertiser_connectable_scannable)
    app_assert_status sdk sc
  | Event.sm_bonded _ _ _ => pure ()
  | Event.sm_confirm_bonding connection _ => do
    let sc ← command stk (Cmd.sm_bonding_confirm connection 1)
    app_assert_status sdk sc
  | Event.sm_confirm_passkey connection _ => do
    let sc ← command stk (Cmd.sm_passkey_confirm connection 1)
    app_assert_status sdk sc
  | Event.other _ => pure ()

/-! ## Traces -/

/-- What the runtime delivers: a stack event or one invocation of
`app_process_action`. -/
inductive Input where
  | event (e : Event)
  | tick
  deriving DecidableEq, Repr

/-- One delivery. -/
def step (sdk : Sdk) (stk : Stack) : Input → M Unit
  | Input.event e => sl_bt_on_event sdk stk e
  | Input.tick => app_process_action sdk stk

/-- Deliveries in order; nothing more is delivered once the process has
halted. -/
def run (sdk : Sdk) (stk : Stack) : List Input → M Unit
  | [] => M.pure ()
  | i :: rest => M.bind (step sdk stk i) (fun _ => run sdk stk rest)

/-- The commands a piece of code issues when started in world `w`. -/
def issued {α : Type} (m : M α) (w : World) : List Cmd :=
  (m w).2.log.drop w.log.length

/-- The `data_len` arguments of the set-data commands of a command list. -/
def data_lens : List Cmd → List Nat
  | [] => []
  | Cmd.legacy_advertiser_set_data _ _ n _ :: cs => n :: data_lens cs
  | _ :: cs => data_lens cs

/-- The payloads of the set-data commands of a command list. -/
def payloads : List Cmd → List (List Nat)
  | [] => []
  | Cmd.legacy_advertiser_set_data _ _ _ d :: cs => d :: payloads cs
  | _ :: cs => payloads cs

/-- The set-timing commands of a command list. -/
def timings : List Cmd → List Cmd
  | [] => []
  | Cmd.advertiser_set_timing a lo hi d n :: cs =>
    Cmd.advertiser_set_timing a lo hi d n :: timings cs
  | _ :: cs => timings cs

/-- The store-bonding-configuration commands of a command list. -/
def bonding_configurations : List Cmd → List Cmd
  | [] => []
  | Cmd.sm_store_bonding_configuration m p :: cs =>
    Cmd.sm_store_bonding_configuration m p :: bonding_configurations cs
  | _ :: cs => bonding_configurations cs

/-- The length in microseconds of an advertising interval given in the
stack's units of 0.625 ms (the source's comment: units = milliseconds * 1.6). -/
def adv_interval_us (units : Nat) : Nat := units * 625

/-- The payload bytes expected for a status flag, field by field: Flags,
Complete Local Name, Manufacturer Specific Data.  That the builder hands over
exactly these bytes is `issued_set_adv_data`. -/
def adv_payload (custom_flags : Nat) : List Nat :=
  [0x02, 0x01, 0x06]
    ++ ([10 + 1, 0x09] ++ [0x66, 0x61, 0x6e, 0x62, 0x61, 0x6e, 0x64, 0x62, 0x6c, 0x65])
    ++ [0x04, 0xFF, 0x77, 0x00, custom_flags]

/-- The command by which the payload for a status flag is installed on
advertising set `a`. -/
def set_data_cmd (a f : Nat) : Cmd :=
  Cmd.legacy_advertiser_set_data a 0 20 (adv_payload f)

/-- The world a piece of code leaves when started in world `w`. -/
def after {α : Type} (m : M α) (w : World) : World := (m w).2

/-- How a piece of code ends when started in world `w`. -/
def ending {α : Type} (m : M α) (w : World) : Res α := (m w).1

/-- A stack on which every command succeeds with status 0 and the advertising
set gets handle 0. -/
def okStack : Stack := { status := fun _ _ => 0, created_set := fun _ => 0 }

/-- The values the SDK headers give the three constants. -/
def sdk0 : Sdk :=
  { SL_STATUS_OK := 0
    sm_io_capability_noinputnooutput := 3
    sl_bt_advertiser_connectable_scannable := 2 }

/-- Every command succeeds. -/
def Stack.AllOk (sdk : Sdk) (stk : Stack) : Prop :=
  ∀ (l : List Cmd) (c : Cmd), stk.status l c = sdk.SL_STATUS_OK

/-- A stack on which every command fails with status 1. -/
def failStack : Stack := { status := fun _ _ => 1, created_set := fun _ => 0 }

/-- The handles of the security-increase requests of a command list. -/
def security_requests (cs : List Cmd) : List Nat :=
  cs.filterMap (fun c =>
    match c with
    | Cmd.sm_increase_security h => some h
    | _ => none)

/-- The number of connection-opened events of a trace. -/
def opened_events (is : List Input) : Nat :=
  is.countP (fun i =>
    match i with
    | Input.event (Event.connection_opened _ _) => true
    | _ => false)

/-- The handle of the most recent connection-opened event of a trace together
with the number of ticks delivered since that event; `none` before the first
connection-opened event. -/
def armed (is : List Input) : Option (Nat × Nat) :=
  is.foldl (fun acc i =>
    match i with
    | Input.event (Event.connection_opened h _) => some (h, 0)
    | Input.tick => acc.map (fun p => (p.1, p.2 + 1))
    | _ => acc) none

/-- The bytes of one AD structure: the length byte, which counts the type
byte and the value bytes, then the type byte, then the value. -/
def ad_structure (ad_type : Nat) (value : List Nat) : List Nat :=
  (1 + value.length) :: ad_type :: value

/-- Reading a payload as a sequence of AD structures (type, value), with the
payload length as the bound on the number of structures; `none` when a length
byte is 0 or runs past the end. -/
def parse_ad_fuel : Nat → List Nat → Option (List (Nat × List Nat))
  | _, [] => some []
  | 0, _ :: _ => none
  | fuel + 1, len :: rest =>
    if len = 0 ∨ rest.length < len then none
    else
      match rest.take len with
      | [] => none
      | ad_type :: value =>
        match parse_ad_fuel fuel (rest.drop len) with
        | none => none
        | some fields => some ((ad_type, value) :: fields)

/-- Reading a whole payload as AD structures. -/
def parse_ad (payload : List Nat) : Option (List (Nat × List Nat)) :=
  parse_ad_fuel payload.length payload

/-- Fail-fast along the commands `cs` issued from log `l` by code that ended
with `r`: a command answered with a non-success status has nothing after it and
the ending is halted. -/
def FailFast (sdk : Sdk) (stk : Stack) (r : Res Unit) : List Cmd → List Cmd → Prop
  | _, [] => True
  | l, c :: cs =>
    if stk.status l c = sdk.SL_STATUS_OK then FailFast sdk stk r (l ++ [c]) cs
    else cs = [] ∧ r = Res.halted

/-- What holds of the world `w` reached by the trace `is` from reset: the
counter is at most 30; while the delay is pending the counter is below 30 and
is the number of ticks since the most recent connection-opened event, whose
handle is `conn_handle`; the requests issued so far, plus the pending one, are
no more than the connection-opened events. -/
def TraceInv (is : List Input) (w : World) : Prop :=
  w.app.bonding_delay_counter ≤ 30 ∧
  (w.app.bonding_pending = false ∨
    (w.app.bonding_delay_counter < 30 ∧
      armed is = some (w.app.conn_handle, w.app.bonding_delay_counter))) ∧
  (security_requests w.log).length + (if w.app.bonding_pending = true then 1 else 0)
    ≤ opened_events is

/-! ## Helper lemmas -/

theorem okStack_allOk : okStack.AllOk sdk0 := fun _ _ => rfl

theorem strlen_device_name : strlen device_name = 10 := by decide

theorem bind_apply {α β : Type} (m : M α) (f : α → M β) (w : World) :
    (m >>= f) w = M.bind m f w := rfl

theorem pure_apply {α : Type} (a : α) (w : World) : (pure a : M α) w = (Res.ok a, w) := rfl

/-- Running the payload builder: one set-data command, then the assertion. -/
theorem set_adv_data_run (sdk : Sdk) (stk : Stack) (f : Nat) (w : World) :
    set_adv_data_with_mfg_data sdk stk f w =
      (if stk.status w.log (set_data_cmd w.app.advertising_set_handle f) = sdk.SL_STATUS_OK
        then Res.ok () else Res.halted,
       { w with log := w.log ++ [set_data_cmd w.app.advertising_set_handle f] }) := by
  show app_assert_status sdk
    (stk.status w.log (set_data_cmd w.app.advertising_set_handle f)) _ = _
  unfold app_assert_status
  split <;> rfl

theorem issued_set_adv_data (sdk : Sdk) (stk : Stack) (f : Nat) (w : World) :
    issued (set_adv_data_with_mfg_data sdk stk f) w
      = [set_data_cmd w.app.advertising_set_handle f] := by
  simp [issued, set_adv_data_run]

theorem run_append (sdk : Sdk) (stk : Stack) (l1 l2 : List Input) (w : World) :
    run sdk stk (l1 ++ l2) w = M.bind (run sdk stk l1) (fun _ => run sdk stk l2) w := by
  induction l1 generalizing w with
  | nil => rfl
  | cons i rest ih =>
    simp only [List.cons_append, run, M.bind]
    cases hstep : step sdk stk i w with
    | mk r w1 =>
      cases r with
      | ok a => simpa [M.bind] using ih w1
      | halted => rfl
      | fault => rfl

/-- A tick with nothing pending does nothing. -/
theorem tick_idle (sdk : Sdk) (stk : Stack) (a h c : Nat) (l : List Cmd) :
    app_process_action sdk stk ⟨⟨a, h, false, c⟩, l⟩ = (Res.ok (), ⟨⟨a, h, false, c⟩, l⟩) := by
  rfl

/-- A tick before the delay has elapsed only counts. -/
theorem tick_wait (sdk : Sdk) (stk : Stack) (a h c : Nat) (l : List Cmd) (hc : c + 1 < 30) :
    app_process_action sdk stk ⟨⟨a, h, true, c⟩, l⟩
      = (Res.ok (), ⟨⟨a, h, true, c + 1⟩, l⟩) := by
  have h1 : (c + 1) % 4294967296 = c + 1 := Nat.mod_eq_of_lt (by omega)
  have h2 : ¬ (c + 1 ≥ 30) := by omega
  simp [app_process_action, bind_apply, pure_apply, M.bind, getApp, setApp, h1, h2,
    BONDING_DELAY_COUNT]

/-- The tick on which the delay elapses sends the request. -/
theorem tick_fire (sdk : Sdk) (stk : Stack) (a h c : Nat) (l : List Cmd)
    (hc : 30 ≤ c + 1) (hlt : c + 1 < 4294967296) :
    app_process_action sdk stk ⟨⟨a, h, true, c⟩, l⟩
      = if stk.status l (Cmd.sm_increase_security h) = sdk.SL_STATUS_OK
        then (Res.ok (), ⟨⟨a, h, false, c + 1⟩, l ++ [Cmd.sm_increase_security h]⟩)
        else (Res.halted, ⟨⟨a, h, true, c + 1⟩, l ++ [Cmd.sm_increase_security h]⟩) := by
  have h1 : (c + 1) % 4294967296 = c + 1 := Nat.mod_eq_of_lt hlt
  have h2 : c + 1 ≥ 30 := hc
  simp only [app_process_action, bind_apply, pure_apply, M.bind, getApp, setApp, h1, h2,
    BONDING_DELAY_COUNT, command, app_assert_status, if_true]
  split_ifs <;> rfl

theorem run_ticks_idle (sdk : Sdk) (stk : Stack) (a h c : Nat) (l : List Cmd) (n : Nat) :
    run sdk stk (List.replicate n Input.tick) ⟨⟨a, h, false, c⟩, l⟩
      = (Res.ok (), ⟨⟨a, h, false, c⟩, l⟩) := by
  induction n with
  | zero => rfl
  | succ n ih =>
    simp only [List.replicate_succ, run, step, M.bind, tick_idle]
    exact ih

theorem run_ticks_wait (sdk : Sdk) (stk : Stack) (a h : Nat) (l : List Cmd) (n c : Nat)
    (hc : c + n < 30) :
    run sdk stk (List.replicate n Input.tick) ⟨⟨a, h, true, c⟩, l⟩
      = (Res.ok (), ⟨⟨a, h, true, c + n⟩, l⟩) := by
  induction n generalizing c with
  | zero => rfl
  | succ n ih =>
    simp only [List.replicate_succ, run, step, M.bind, tick_wait sdk stk a h c l (by omega)]
    have := ih (c + 1) (by omega)
    simpa [Nat.add_assoc, Nat.add_comm 1 n] using this

/-- Any number of ticks from a pending state, when the request succeeds. -/
theorem run_ticks_pending (sdk : Sdk) (stk : Stack) (a h : Nat) (l : List Cmd) (n c : Nat)
    (hc : c < 30) (hreq : stk.status l (Cmd.sm_increase_security h) = sdk.SL_STATUS_OK) :
    run sdk stk (List.replicate n Input.tick) ⟨⟨a, h, true, c⟩, l⟩
      = if n < 30 - c then (Res.ok (), ⟨⟨a, h, true, c + n⟩, l⟩)
        else (Res.ok (), ⟨⟨a, h, false, 30⟩, l ++ [Cmd.sm_increase_security h]⟩) := by
  split_ifs with hn
  · exact run_ticks_wait sdk stk a h l n c (by omega)
  · obtain ⟨m, rfl⟩ : ∃ m, n = (29 - c) + (1 + m) := ⟨n - (30 - c), by omega⟩
    rw [List.replicate_add, run_append]
    simp only [M.bind, run_ticks_wait sdk stk a h l (29 - c) c (by omega)]
    rw [List.replicate_add, run_append]
    have hfire := tick_fire sdk stk a h (c + (29 - c)) l (by omega) (by omega)
    rw [if_pos hreq] at hfire
    have h30 : c + (29 - c) + 1 = 30 := by omega
    simp only [M.bind, List.replicate_one, run, step, hfire, h30]
    exact run_ticks_idle sdk stk a h 30 _ m

/-- Connection opened: the handle is recorded and the delay is armed. -/
theorem opened_run (sdk : Sdk) (stk : Stack) (conn b a h c : Nat) (p : Bool) (l : List Cmd) :
    sl_bt_on_event sdk stk (Event.connection_opened conn b) ⟨⟨a, h, p, c⟩, l⟩
      = (Res.ok (), ⟨⟨a, conn, true, 0⟩, l⟩) := rfl

/-- Connection closed, all commands succeeding. -/
theorem closed_run (sdk : Sdk) (stk : Stack) (r : Nat) (w : World) (hok : stk.AllOk sdk) :
    sl_bt_on_event sdk stk (Event.connection_closed r) w =
      (Res.ok (), { w with log := w.log ++ [set_data_cmd w.app.advertising_set_handle 0,
          Cmd.legacy_advertiser_start w.app.advertising_set_handle
            sdk.sl_bt_advertiser_connectable_scannable] }) := by
  simp [sl_bt_on_event, bind_apply, M.bind, set_adv_data_run, hok _ _, getApp, command,
    app_assert_status]

/-- Bonding failed, all commands succeeding. -/
theorem failed_run (sdk : Sdk) (stk : Stack) (conn r : Nat) (w : World) (hok : stk.AllOk sdk) :
    sl_bt_on_event sdk stk (Event.sm_bonding_failed conn r) w =
      (Res.ok (), { w with log := w.log ++
        ((if r = 0x1006 ∨ r = 0x1208 ∨ r = 0x1205 ∨ r = 0x120B
            then [Cmd.sm_delete_bondings] else []) ++
          [set_data_cmd w.app.advertising_set_handle 0x01,
            Cmd.legacy_advertiser_start w.app.advertising_set_handle
              sdk.sl_bt_advertiser_connectable_scannable]) }) := by
  simp only [sl_bt_on_event]
  split_ifs <;>
    simp [bind_apply, pure_apply, M.bind, set_adv_data_run, hok _ _, getApp, command,
      app_assert_status, ADV_FLAG_NEEDS_PAIRING]

/-- Boot, all commands succeeding. -/
theorem boot_run (sdk : Sdk) (stk : Stack) (a h c : Nat) (p : Bool) (l : List Cmd)
    (hok : stk.AllOk sdk) :
    sl_bt_on_event sdk stk Event.system_boot ⟨⟨a, h, p, c⟩, l⟩ =
      (Res.ok (), ⟨⟨stk.created_set l % 256, h, p, c⟩, l ++
        [Cmd.advertiser_create_set,
         set_data_cmd (stk.created_set l % 256) 0x00,
         Cmd.advertiser_set_timing (stk.created_set l % 256) 160 160 0 0,
         Cmd.sm_configure 0x00 sdk.sm_io_capability_noinputnooutput,
         Cmd.sm_set_bondable_mode 1,
         Cmd.sm_store_bonding_configuration 1 0x2,
         Cmd.legacy_advertiser_start (stk.created_set l % 256)
           sdk.sl_bt_advertiser_connectable_scannable]⟩) := by
  simp [sl_bt_on_event, bind_apply, M.bind, set_adv_data_run, hok _ _, getApp, command,
    app_assert_status, sl_bt_advertiser_create_set]

/-- Opened, then fewer than thirty ticks: the delay is still pending and
nothing has been issued. -/
theorem run_opened_ticks (sdk : Sdk) (stk : Stack) (conn b a h c : Nat) (p : Bool)
    (l : List Cmd) (k : Nat) (hk : k < 30) :
    run sdk stk (Input.event (Event.connection_opened conn b) :: List.replicate k Input.tick)
        ⟨⟨a, h, p, c⟩, l⟩
      = (Res.ok (), ⟨⟨a, conn, true, k⟩, l⟩) := by
  simp only [run, step, M.bind, opened_run]
  simpa using run_ticks_wait sdk stk a conn l k 0 (by omega)

/-- Opened, `k < 30` ticks, closed, `n` ticks, all commands succeeding: the
close handler readvertises and the delay runs on. -/
theorem run_open_close_ticks (sdk : Sdk) (stk : Stack) (conn b r k n a h c : Nat) (p : Bool)
    (l : List Cmd) (hok : stk.AllOk sdk) (hk : k < 30) :
    run sdk stk
        (Input.event (Event.connection_opened conn b) ::
          (List.replicate k Input.tick ++
            Input.event (Event.connection_closed r) :: List.replicate n Input.tick))
        ⟨⟨a, h, p, c⟩, l⟩
      = if n < 30 - k
        then (Res.ok (), ⟨⟨a, conn, true, k + n⟩,
          l ++ [set_data_cmd a 0,
            Cmd.legacy_advertiser_start a sdk.sl_bt_advertiser_connectable_scannable]⟩)
        else (Res.ok (), ⟨⟨a, conn, false, 30⟩,
          l ++ [set_data_cmd a 0,
            Cmd.legacy_advertiser_start a sdk.sl_bt_advertiser_connectable_scannable,
            Cmd.sm_increase_security conn]⟩) := by
  rw [← List.cons_append, run_append]
  unfold M.bind
  rw [run_opened_ticks sdk stk conn b a h c p l k hk]
  simp only [run, step, M.bind, closed_run sdk stk r _ hok]
  rw [run_ticks_pending sdk stk a conn _ n k hk (hok _ _)]
  split_ifs <;> simp

/-- The commands boot issues when all of them succeed. -/
theorem issued_boot (sdk : Sdk) (stk : Stack) (w : World) (hok : stk.AllOk sdk) :
    issued (sl_bt_on_event sdk stk Event.system_boot) w =
      [Cmd.advertiser_create_set,
       set_data_cmd (stk.created_set w.log % 256) 0x00,
       Cmd.advertiser_set_timing (stk.created_set w.log % 256) 160 160 0 0,
       Cmd.sm_configure 0x00 sdk.sm_io_capability_noinputnooutput,
       Cmd.sm_set_bondable_mode 1,
       Cmd.sm_store_bonding_configuration 1 0x2,
       Cmd.legacy_advertiser_start (stk.created_set w.log % 256)
         sdk.sl_bt_advertiser_connectable_scannable] := by
  obtain ⟨⟨a, h, p, c⟩, l⟩ := w
  simp only [issued, boot_run sdk stk a h c p l hok]
  simp

/-! ## C1: the delayed security request -/

/-- C1: after a connection-opened event for handle `h`, in any prior state,
each of the first 29 invocations of `app_process_action` issues no command;
the 30th issues exactly one security-increase request, on `h`, and when that
request succeeds it ends normally with `bonding_pending = false`. -/
theorem C1_request_on_thirtieth_tick (sdk : Sdk) (stk : Stack) (h b : Nat) (w : World)
    (hreq : stk.status w.log (Cmd.sm_increase_security h) = sdk.SL_STATUS_OK) :
    (∀ k : Fin 29,
      ending (run sdk stk
          (Input.event (Event.connection_opened h b) :: List.replicate k Input.tick)) w
        = Res.ok () ∧
      issued (app_process_action sdk stk) (after (run sdk stk
          (Input.event (Event.connection_opened h b) :: List.replicate k Input.tick)) w)
        = []) ∧
    ending (run sdk stk
        (Input.event (Event.connection_opened h b) :: List.replicate 29 Input.tick)) w
      = Res.ok () ∧
    issued (app_process_action sdk stk) (after (run sdk stk
        (Input.event (Event.connection_opened h b) :: List.replicate 29 Input.tick)) w)
      = [Cmd.sm_increase_security h] ∧
    ending (app_process_action sdk stk) (after (run sdk stk
        (Input.event (Event.connection_opened h b) :: List.replicate 29 Input.tick)) w)
      = Res.ok () ∧
    (after (app_process_action sdk stk) (after (run sdk stk
        (Input.event (Event.connection_opened h b) :: List.replicate 29 Input.tick)) w)
      ).app.bonding_pending = false := by
  obtain ⟨⟨a, h0, p, c⟩, l⟩ := w
  have hfire := tick_fire sdk stk a h 29 l (by omega) (by omega)
  rw [if_pos hreq] at hfire
  have h29 := run_opened_ticks sdk stk h b a h0 c p l 29 (by omega)
  refine ⟨fun k => ?_, ?_, ?_, ?_, ?_⟩
  · have hw := tick_wait sdk stk a h k l (by omega)
    simp only [ending, after, issued, run_opened_ticks sdk stk h b a h0 c p l k (by omega), hw]
    simp
  · simp only [ending, h29]
  · simp only [after, issued, h29, hfire]
    simp
  · simp only [ending, after, h29, hfire]
  · simp only [after, h29, hfire]

/-- C1 at handle 1 from the reset state on the always-succeeding stack. -/
theorem C1_request_on_thirtieth_tick_witness :
    okStack.status World.init.log (Cmd.sm_increase_security 1) = sdk0.SL_STATUS_OK ∧
    issued (app_process_action sdk0 okStack) (after (run sdk0 okStack
        (Input.event (Event.connection_opened 1 0) :: List.replicate 29 Input.tick)) World.init)
      = [Cmd.sm_increase_security 1] :=
  ⟨rfl, (C1_request_on_thirtieth_tick sdk0 okStack 1 0 World.init rfl).2.2.1⟩

/-! ## C2: a connection closed before the delay has elapsed -/

/-- C2, refuted as stated: handle 1 is opened and closed at once (no tick in
between, reason 0x0213); the close handler restarts advertising with status
flag 0x00, and the 30th tick after it still issues a security-increase request
for handle 1. -/
theorem C2_counterexample :
    issued (run sdk0 okStack
        (Input.event (Event.connection_opened 1 0) ::
          Input.event (Event.connection_closed 0x0213) :: List.replicate 30 Input.tick))
        World.init
      = [Cmd.legacy_advertiser_set_data 0xff 0 20 (adv_payload 0x00),
         Cmd.legacy_advertiser_start 0xff 2,
         Cmd.sm_increase_security 1] := by
  have hrun : run sdk0 okStack
        (Input.event (Event.connection_opened 1 0) ::
          Input.event (Event.connection_closed 0x0213) :: List.replicate 30 Input.tick)
        World.init
      = (Res.ok (), ⟨⟨0xff, 1, false, 30⟩,
          [set_data_cmd 0xff 0, Cmd.legacy_advertiser_start 0xff 2,
            Cmd.sm_increase_security 1]⟩) :=
    run_open_close_ticks sdk0 okStack 1 0 0x0213 0 30 0xff 0xFF 0 false []
      okStack_allOk (by decide)
  simp only [issued, hrun]
  rfl

/-- C2, amended: opened(h), `k < 30` ticks, closed, then `n` ticks, all
commands succeeding.  The close handler restarts advertising with status flag
0x00 and does not cancel the delay: nothing more is issued while fewer than
`30 - k` ticks have followed, and from the `(30 - k)`-th on exactly one
security-increase request for `h` has been issued. -/
theorem C2_close_keeps_delay (sdk : Sdk) (stk : Stack) (h b r k n : Nat) (w : World)
    (hok : stk.AllOk sdk) (hk : k < 30) :
    issued (run sdk stk
        (Input.event (Event.connection_opened h b) ::
          (List.replicate k Input.tick ++
            Input.event (Event.connection_closed r) :: List.replicate n Input.tick))) w
      = [Cmd.legacy_advertiser_set_data w.app.advertising_set_handle 0 20 (adv_payload 0x00),
         Cmd.legacy_advertiser_start w.app.advertising_set_handle
           sdk.sl_bt_advertiser_connectable_scannable]
        ++ (if n < 30 - k then [] else [Cmd.sm_increase_security h]) := by
  obtain ⟨⟨a, h0, p, c⟩, l⟩ := w
  rw [issued, run_open_close_ticks sdk stk h b r k n a h0 c p l hok hk]
  split_ifs <;> simp [set_data_cmd]

/-- C2 amended, at handle 1, two ticks before the close and 28 after it. -/
theorem C2_close_keeps_delay_witness :
    okStack.AllOk sdk0 ∧ 2 < 30 ∧
    issued (run sdk0 okStack
        (Input.event (Event.connection_opened 1 0) ::
          (List.replicate 2 Input.tick ++
            Input.event (Event.connection_closed 0x0213) :: List.replicate 28 Input.tick)))
        World.init
      = [Cmd.legacy_advertiser_set_data World.init.app.advertising_set_handle 0 20
           (adv_payload 0x00),
         Cmd.legacy_advertiser_start World.init.app.advertising_set_handle
           sdk0.sl_bt_advertiser_connectable_scannable]
        ++ (if 28 < 30 - 2 then [] else [Cmd.sm_increase_security 1]) :=
  ⟨okStack_allOk, by decide,
    C2_close_keeps_delay sdk0 okStack 1 0 0x0213 2 28 World.init okStack_allOk (by decide)⟩

/-! ## C3, C4: the advertising payload -/

/-- C3, refuted as stated: for status flag 0 the payload handed to the stack
has 20 bytes (and `adv_len` is 20), while 3 + (1 + 1 + name length) + 4 is
19. -/
theorem C3_counterexample :
    data_lens (issued (set_adv_data_with_mfg_data sdk0 okStack 0) World.init) = [20] ∧
    (payloads (issued (set_adv_data_with_mfg_data sdk0 okStack 0) World.init)).map List.length
      = [20] ∧
    3 + (1 + 1 + strlen device_name) + 4 = 19 ∧
    data_lens (issued (set_adv_data_with_mfg_data sdk0 okStack 0) World.init)
      ≠ [3 + (1 + 1 + strlen device_name) + 4] := by
  decide

/-- C3, amended: for every status flag `f` the payload has total length
3 (flags) + (1 + 1 + name length) (name) + 5 (manufacturer: its length byte and
the 4 bytes that byte counts), with name length 10, that is `adv_len = 20`. -/
theorem C3_payload_length (sdk : Sdk) (stk : Stack) (f : Nat) (w : World) :
    data_lens (issued (set_adv_data_with_mfg_data sdk stk f) w)
      = [3 + (1 + 1 + strlen device_name) + 5] ∧
    (payloads (issued (set_adv_data_with_mfg_data sdk stk f) w)).map List.length
      = [3 + (1 + 1 + strlen device_name) + 5] ∧
    strlen device_name = 10 ∧
    3 + (1 + 1 + strlen device_name) + 5 = 20 := by
  rw [issued_set_adv_data]
  exact ⟨rfl, rfl, strlen_device_name, by decide⟩

/-- C4: for every status flag `f` the one command `set_adv_data_with_mfg_data`
issues hands over exactly the Flags field, the Complete Local Name field and
the Manufacturer Specific Data field; the last payload byte is `f`, and the
bytes before it are the same for every other flag `g`. -/
theorem C4_payload_bytes (sdk : Sdk) (stk : Stack) (f : Nat) (w : World) :
    issued (set_adv_data_with_mfg_data sdk stk f) w
      = [Cmd.legacy_advertiser_set_data w.app.advertising_set_handle 0 20
          ([0x02, 0x01, 0x06]
            ++ ([strlen device_name + 1, 0x09] ++ "fanbandble".toList.map Char.toNat)
            ++ [0x04, 0xFF, 0x77, 0x00, f])] ∧
    0x77 + 256 * 0x00 = SILABS_COMPANY_ID ∧
    (payloads (issued (set_adv_data_with_mfg_data sdk stk f) w)).map List.getLast? = [some f] ∧
    ∀ g : Nat,
      (payloads (issued (set_adv_data_with_mfg_data sdk stk g) w)).map List.dropLast
        = (payloads (issued (set_adv_data_with_mfg_data sdk stk f) w)).map List.dropLast := by
  refine ⟨?_, by decide, ?_, fun g => ?_⟩
  · rw [issued_set_adv_data]; rfl
  · rw [issued_set_adv_data]; rfl
  · rw [issued_set_adv_data, issued_set_adv_data]; rfl

/-! ## C5, C6: bonding failed -/

/-- C5: for every reason code `r`, whatever the stack answers, the
bonding-failed handler issues delete-all-bondings exactly once when `r` is
0x1006, 0x1208, 0x1205 or 0x120B and not at all for any other `r`. -/
theorem C5_delete_bondings_count (sdk : Sdk) (stk : Stack) (conn r : Nat) (w : World) :
    (issued (sl_bt_on_event sdk stk (Event.sm_bonding_failed conn r)) w).count
        Cmd.sm_delete_bondings
      = if r = 0x1006 ∨ r = 0x1208 ∨ r = 0x1205 ∨ r = 0x120B then 1 else 0 := by
  simp only [issued, sl_bt_on_event]
  repeat' first
    | split_ifs
    | simp only [bind_apply, pure_apply, M.bind, set_adv_data_run, getApp, command,
        app_assert_status, set_data_cmd, List.append_assoc, List.singleton_append,
        List.cons_append, List.nil_append, List.drop_left]
  all_goals simp [List.count_cons]

/-- C6: for every bonding-failed event, all commands succeeding, the handler
issues delete-all-bondings first when the reason is one of the four listed and
then, last, set-advertiser-data with the payload for status flag 0x01 and
start-legacy-advertiser (connectable and scannable), both on the stored
advertising-set handle. -/
theorem C6_bonding_failed_readvertises (sdk : Sdk) (stk : Stack) (conn r : Nat) (w : World)
    (hok : stk.AllOk sdk) :
    issued (sl_bt_on_event sdk stk (Event.sm_bonding_failed conn r)) w
      = (if r = 0x1006 ∨ r = 0x1208 ∨ r = 0x1205 ∨ r = 0x120B
          then [Cmd.sm_delete_bondings] else [])
        ++ [Cmd.legacy_advertiser_set_data w.app.advertising_set_handle 0 20 (adv_payload 0x01),
            Cmd.legacy_advertiser_start w.app.advertising_set_handle
              sdk.sl_bt_advertiser_connectable_scannable] ∧
    ending (sl_bt_on_event sdk stk (Event.sm_bonding_failed conn r)) w = Res.ok () := by
  simp [issued, ending, failed_run sdk stk conn r w hok, set_data_cmd]

/-- C6 at reason 0x120B (authentication failed) from the reset state. -/
theorem C6_bonding_failed_readvertises_witness :
    okStack.AllOk sdk0 ∧
    issued (sl_bt_on_event sdk0 okStack (Event.sm_bonding_failed 1 0x120B)) World.init
      = (if (0x120B : Nat) = 0x1006 ∨ (0x120B : Nat) = 0x1208 ∨ (0x120B : Nat) = 0x1205
            ∨ (0x120B : Nat) = 0x120B
          then [Cmd.sm_delete_bondings] else [])
        ++ [Cmd.legacy_advertiser_set_data World.init.app.advertising_set_handle 0 20
              (adv_payload 0x01),
            Cmd.legacy_advertiser_start World.init.app.advertising_set_handle
              sdk0.sl_bt_advertiser_connectable_scannable] :=
  ⟨okStack_allOk,
    (C6_bonding_failed_readvertises sdk0 okStack 1 0x120B World.init okStack_allOk).1⟩

/-! ## C7, C8, C9: boot -/

/-- C7, evaluated: on the boot event from the reset state, with every command
succeeding, the one store-bonding-configuration command carries a maximum of 1
bond (not 8) with policy flag 0x2. -/
theorem C7_boot_bonding_configuration :
    bonding_configurations (issued (sl_bt_on_event sdk0 okStack Event.system_boot) World.init)
      = [Cmd.sm_store_bonding_configuration 1 0x2] ∧
    Cmd.sm_store_bonding_configuration 8 0x2 ∉
      issued (sl_bt_on_event sdk0 okStack Event.system_boot) World.init := by
  rw [issued_boot sdk0 okStack World.init okStack_allOk]
  decide

/-- C8: on the boot event, every command succeeding, the handler ends
normally having issued exactly: create-advertising-set; set-advertiser-data
with the payload for status flag 0x00 on the returned handle;
set-advertiser-timing; configure-security-manager (flags 0x00,
no-input-no-output); set-bondable-mode 1; store-bonding-configuration;
start-legacy-advertiser (that handle, connectable and scannable).  The returned
handle is the one stored. -/
theorem C8_boot_sequence (sdk : Sdk) (stk : Stack) (w : World) (hok : stk.AllOk sdk) :
    issued (sl_bt_on_event sdk stk Event.system_boot) w =
      [Cmd.advertiser_create_set,
       Cmd.legacy_advertiser_set_data (stk.created_set w.log % 256) 0 20 (adv_payload 0x00),
       Cmd.advertiser_set_timing (stk.created_set w.log % 256) 160 160 0 0,
       Cmd.sm_configure 0x00 sdk.sm_io_capability_noinputnooutput,
       Cmd.sm_set_bondable_mode 1,
       Cmd.sm_store_bonding_configuration 1 0x2,
       Cmd.legacy_advertiser_start (stk.created_set w.log % 256)
         sdk.sl_bt_advertiser_connectable_scannable] ∧
    ending (sl_bt_on_event sdk stk Event.system_boot) w = Res.ok () ∧
    (after (sl_bt_on_event sdk stk Event.system_boot) w).app.advertising_set_handle
      = stk.created_set w.log % 256 := by
  refine ⟨issued_boot sdk stk w hok, ?_, ?_⟩
  · obtain ⟨⟨a, h, p, c⟩, l⟩ := w
    simp only [ending, boot_run sdk stk a h c p l hok]
  · obtain ⟨⟨a, h, p, c⟩, l⟩ := w
    simp only [after, boot_run sdk stk a h c p l hok]

/-- C8 from the reset state on the always-succeeding stack. -/
theorem C8_boot_sequence_witness :
    okStack.AllOk sdk0 ∧
    ending (sl_bt_on_event sdk0 okStack Event.system_boot) World.init = Res.ok () :=
  ⟨okStack_allOk, (C8_boot_sequence sdk0 okStack World.init okStack_allOk).2.1⟩

/-- C9, refuted as stated: the set-advertiser-timing command of boot carries
min = max = 160 units, duration 0 and max events 0, but 160 units of 0.625 ms
are not 96 ms. -/
theorem C9_counterexample :
    timings (issued (sl_bt_on_event sdk0 okStack Event.system_boot) World.init)
      = [Cmd.advertiser_set_timing 0 160 160 0 0] ∧
    adv_interval_us 160 ≠ 96 * 1000 := by
  rw [issued_boot sdk0 okStack World.init okStack_allOk]
  decide

/-- C9, amended: after boot, every command succeeding, the one
set-advertiser-timing command carries min interval = max interval = 160 units of
0.625 ms, which is an advertising interval of 100 ms, with duration 0 and max
events 0. -/
theorem C9_boot_timing (sdk : Sdk) (stk : Stack) (w : World) (hok : stk.AllOk sdk) :
    timings (issued (sl_bt_on_event sdk stk Event.system_boot) w)
      = [Cmd.advertiser_set_timing
          (after (sl_bt_on_event sdk stk Event.system_boot) w).app.advertising_set_handle
          160 160 0 0] ∧
    adv_interval_us 160 = 100 * 1000 := by
  obtain ⟨⟨a, h, p, c⟩, l⟩ := w
  rw [issued_boot sdk stk _ hok]
  simp only [after, boot_run sdk stk a h c p l hok]
  exact ⟨rfl, by decide⟩

/-- C9 amended, from the reset state on the always-succeeding stack. -/
theorem C9_boot_timing_witness :
    okStack.AllOk sdk0 ∧
    timings (issued (sl_bt_on_event sdk0 okStack Event.system_boot) World.init)
      = [Cmd.advertiser_set_timing
          (after (sl_bt_on_event sdk0 okStack Event.system_boot) World.init
            ).app.advertising_set_handle
          160 160 0 0] ∧
    adv_interval_us 160 = 100 * 1000 :=
  ⟨okStack_allOk, C9_boot_timing sdk0 okStack World.init okStack_allOk⟩

/-! ## C10: connection closed -/

/-- C10: for every connection-closed event, whatever its reason, all commands
succeeding, the handler ends normally having issued exactly set-advertiser-data
with the payload for status flag 0x00 and then start-legacy-advertiser
(connectable and scannable), both on the stored advertising-set handle; the
stored connection handle and advertising-set handle are unchanged. -/
theorem C10_closed_readvertises (sdk : Sdk) (stk : Stack) (r : Nat) (w : World)
    (hok : stk.AllOk sdk) :
    issued (sl_bt_on_event sdk stk (Event.connection_closed r)) w =
      [Cmd.legacy_advertiser_set_data w.app.advertising_set_handle 0 20 (adv_payload 0x00),
       Cmd.legacy_advertiser_start w.app.advertising_set_handle
         sdk.sl_bt_advertiser_connectable_scannable] ∧
    ending (sl_bt_on_event sdk stk (Event.connection_closed r)) w = Res.ok () ∧
    (after (sl_bt_on_event sdk stk (Event.connection_closed r)) w).app.conn_handle
      = w.app.conn_handle ∧
    (after (sl_bt_on_event sdk stk (Event.connection_closed r)) w).app.advertising_set_handle
      = w.app.advertising_set_handle := by
  simp [issued, ending, after, closed_run sdk stk r w hok, set_data_cmd]

/-- C10 at reason 0x0213 from the reset state. -/
theorem C10_closed_readvertises_witness :
    okStack.AllOk sdk0 ∧
    issued (sl_bt_on_event sdk0 okStack (Event.connection_closed 0x0213)) World.init =
      [Cmd.legacy_advertiser_set_data World.init.app.advertising_set_handle 0 20
         (adv_payload 0x00),
       Cmd.legacy_advertiser_start World.init.app.advertising_set_handle
         sdk0.sl_bt_advertiser_connectable_scannable] :=
  ⟨okStack_allOk, (C10_closed_readvertises sdk0 okStack 0x0213 World.init okStack_allOk).1⟩

/-! ## C11: confirmation requests -/

/-- C11: for every confirm-bonding and every confirm-passkey event, in every
state and whatever the stack answers, the handler issues exactly one
confirmation command, on the connection carried by the event, with accept
argument 1. -/
theorem C11_auto_confirm (sdk : Sdk) (stk : Stack) (conn x : Nat) (w : World) :
    issued (sl_bt_on_event sdk stk (Event.sm_confirm_bonding conn x)) w
      = [Cmd.sm_bonding_confirm conn 1] ∧
    issued (sl_bt_on_event sdk stk (Event.sm_confirm_passkey conn x)) w
      = [Cmd.sm_passkey_confirm conn 1] := by
  constructor <;>
    simp only [issued, sl_bt_on_event, bind_apply, M.bind, command, app_assert_status] <;>
    split_ifs <;> simp

/-! ## Further helper lemmas -/

/-- One invocation of `app_process_action`, in every state and for every
answer of the stack. -/
theorem tick_cases (sdk : Sdk) (stk : Stack) (a h c : Nat) (p : Bool) (l : List Cmd) :
    app_process_action sdk stk ⟨⟨a, h, p, c⟩, l⟩ =
      if p = true then
        if 30 ≤ (c + 1) % 4294967296 then
          if stk.status l (Cmd.sm_increase_security h) = sdk.SL_STATUS_OK
          then (Res.ok (), ⟨⟨a, h, false, (c + 1) % 4294967296⟩,
            l ++ [Cmd.sm_increase_security h]⟩)
          else (Res.halted, ⟨⟨a, h, true, (c + 1) % 4294967296⟩,
            l ++ [Cmd.sm_increase_security h]⟩)
        else (Res.ok (), ⟨⟨a, h, true, (c + 1) % 4294967296⟩, l⟩)
      else (Res.ok (), ⟨⟨a, h, p, c⟩, l⟩) := by
  cases p with
  | false => rfl
  | true =>
    simp only [app_process_action, bind_apply, pure_apply, M.bind, getApp, setApp,
      BONDING_DELAY_COUNT, command, app_assert_status, if_true, ge_iff_le]
    split_ifs <;>
      simp [bind_apply, pure_apply, M.bind, command, app_assert_status, setApp, *]

/-- The connection-closed handler leaves the variables alone, whatever the
stack answers. -/
theorem closed_app (sdk : Sdk) (stk : Stack) (r : Nat) (w : World) :
    (sl_bt_on_event sdk stk (Event.connection_closed r) w).2.app = w.app := by
  simp only [sl_bt_on_event]
  repeat' first
    | split_ifs
    | simp only [bind_apply, pure_apply, M.bind, set_adv_data_run, getApp, command,
        app_assert_status]

theorem run_cons (sdk : Sdk) (stk : Stack) (i : Input) (rest : List Input) (w : World) :
    run sdk stk (i :: rest) w = M.bind (step sdk stk i) (fun _ => run sdk stk rest) w := rfl

/-- Opened and thirty ticks: the request goes out on the thirtieth. -/
theorem run_opened_fire (sdk : Sdk) (stk : Stack) (conn b a h c : Nat) (p : Bool)
    (l : List Cmd) (hreq : stk.status l (Cmd.sm_increase_security conn) = sdk.SL_STATUS_OK) :
    run sdk stk (Input.event (Event.connection_opened conn b) :: List.replicate 30 Input.tick)
        ⟨⟨a, h, p, c⟩, l⟩
      = (Res.ok (), ⟨⟨a, conn, false, 30⟩, l ++ [Cmd.sm_increase_security conn]⟩) := by
  rw [run_cons]
  simp only [step, M.bind, opened_run]
  rw [run_ticks_pending sdk stk a conn l 30 0 (by omega) hreq, if_neg (by omega)]

/-! ## C13: the request after a close -/

/-- C13: for every handle `h`, all commands succeeding, on the sequence
connection-opened(h), connection-closed, 30 invocations of
`app_process_action`: the close handler readvertises, leaves `bonding_pending`
and `bonding_delay_counter` as they were, and the 30 invocations that follow it
issue a security-increase request for `h`. -/
theorem C13_request_after_close (sdk : Sdk) (stk : Stack) (h b r : Nat) (w : World)
    (hok : stk.AllOk sdk) :
    issued (run sdk stk
        [Input.event (Event.connection_opened h b), Input.event (Event.connection_closed r)]) w
      = [Cmd.legacy_advertiser_set_data w.app.advertising_set_handle 0 20 (adv_payload 0x00),
         Cmd.legacy_advertiser_start w.app.advertising_set_handle
           sdk.sl_bt_advertiser_connectable_scannable] ∧
    issued (run sdk stk (List.replicate 30 Input.tick)) (after (run sdk stk
        [Input.event (Event.connection_opened h b), Input.event (Event.connection_closed r)]) w)
      = [Cmd.sm_increase_security h] ∧
    (∀ w1 : World,
      (after (sl_bt_on_event sdk stk (Event.connection_closed r)) w1).app.bonding_pending
        = w1.app.bonding_pending ∧
      (after (sl_bt_on_event sdk stk (Event.connection_closed r)) w1).app.bonding_delay_counter
        = w1.app.bonding_delay_counter) := by
  obtain ⟨⟨a, h0, p, c⟩, l⟩ := w
  have hrun : run sdk stk
      [Input.event (Event.connection_opened h b), Input.event (Event.connection_closed r)]
      ⟨⟨a, h0, p, c⟩, l⟩
      = (Res.ok (), ⟨⟨a, h, true, 0⟩, l ++ [set_data_cmd a 0,
          Cmd.legacy_advertiser_start a sdk.sl_bt_advertiser_connectable_scannable]⟩) := by
    simp only [run, step, M.bind, opened_run, closed_run sdk stk r _ hok, M.pure]
  refine ⟨?_, ?_, fun w1 => ?_⟩
  · simp only [issued, hrun]
    simp [set_data_cmd]
  · simp only [issued, after, hrun]
    rw [run_ticks_pending sdk stk a h _ 30 0 (by omega) (hok _ _)]
    simp
  · simp [after, closed_app]

/-- C13 at handle 1 with close reason 0x0213, from the reset state. -/
theorem C13_request_after_close_witness :
    okStack.AllOk sdk0 ∧
    issued (run sdk0 okStack (List.replicate 30 Input.tick)) (after (run sdk0 okStack
        [Input.event (Event.connection_opened 1 0),
          Input.event (Event.connection_closed 0x0213)]) World.init)
      = [Cmd.sm_increase_security 1] :=
  ⟨okStack_allOk,
    (C13_request_after_close sdk0 okStack 1 0 0x0213 World.init okStack_allOk).2.1⟩

/-! ## C14: the timer state when the request fires -/

/-- C14, refuted as stated: handle 1 is opened in the reset state and 30 ticks
follow, every command succeeding; the 30th issues the request, and the timer
state left is pending = false with the counter at 30, not 0. -/
theorem C14_counterexample :
    issued (run sdk0 okStack
        (Input.event (Event.connection_opened 1 0) :: List.replicate 30 Input.tick)) World.init
      = [Cmd.sm_increase_security 1] ∧
    (after (run sdk0 okStack
        (Input.event (Event.connection_opened 1 0) :: List.replicate 30 Input.tick)) World.init
      ).app = ⟨0xff, 1, false, 30⟩ ∧
    (after (run sdk0 okStack
        (Input.event (Event.connection_opened 1 0) :: List.replicate 30 Input.tick)) World.init
      ).app.bonding_delay_counter ≠ 0 := by
  have hrun : run sdk0 okStack
      (Input.event (Event.connection_opened 1 0) :: List.replicate 30 Input.tick) World.init
      = (Res.ok (), ⟨⟨0xff, 1, false, 30⟩, [Cmd.sm_increase_security 1]⟩) :=
    run_opened_fire sdk0 okStack 1 0 0xff 0xFF 0 false [] rfl
  simp only [issued, after, hrun]
  decide

/-- C14, amended: whenever an invocation of `app_process_action` issues a
command and ends normally, that command is one security-increase request on
`conn_handle`, `bonding_pending` is false afterwards, and the counter is left
at its incremented value, which is at least 30; it is not set back to 0. -/
theorem C14_fire_clears_pending_only (sdk : Sdk) (stk : Stack) (w : World)
    (hfire : issued (app_process_action sdk stk) w ≠ [])
    (hsucc : ending (app_process_action sdk stk) w = Res.ok ()) :
    issued (app_process_action sdk stk) w = [Cmd.sm_increase_security w.app.conn_handle] ∧
    (after (app_process_action sdk stk) w).app.bonding_pending = false ∧
    (after (app_process_action sdk stk) w).app.bonding_delay_counter
      = (w.app.bonding_delay_counter + 1) % 4294967296 ∧
    30 ≤ (after (app_process_action sdk stk) w).app.bonding_delay_counter ∧
    (after (app_process_action sdk stk) w).app.conn_handle = w.app.conn_handle ∧
    (after (app_process_action sdk stk) w).app.advertising_set_handle
      = w.app.advertising_set_handle := by
  obtain ⟨⟨a, h, p, c⟩, l⟩ := w
  simp only [issued, ending, after, tick_cases] at hfire hsucc ⊢
  split_ifs at hfire hsucc ⊢ <;> simp_all

/-- C14 amended, in the state reached by opening handle 1 and 29 ticks. -/
theorem C14_fire_clears_pending_only_witness :
    issued (app_process_action sdk0 okStack) ⟨⟨0xff, 1, true, 29⟩, []⟩ ≠ [] ∧
    ending (app_process_action sdk0 okStack) ⟨⟨0xff, 1, true, 29⟩, []⟩ = Res.ok () ∧
    (after (app_process_action sdk0 okStack) ⟨⟨0xff, 1, true, 29⟩, []⟩).app.bonding_pending
      = false ∧
    (after (app_process_action sdk0 okStack) ⟨⟨0xff, 1, true, 29⟩, []⟩
      ).app.bonding_delay_counter = (29 + 1) % 4294967296 :=
  ⟨by decide, by decide,
    (C14_fire_clears_pending_only sdk0 okStack ⟨⟨0xff, 1, true, 29⟩, []⟩
      (by decide) (by decide)).2.1,
    (C14_fire_clears_pending_only sdk0 okStack ⟨⟨0xff, 1, true, 29⟩, []⟩
      (by decide) (by decide)).2.2.1⟩

/-! ## C15: the shape of the payload -/

/-- C15: for every status flag `f`, in every state and whatever the stack
answers, `set_adv_data_with_mfg_data` never stores outside the 31-byte buffer,
the payload has 20 bytes, at most 31, and it is three AD structures laid end to
end, of types 0x01, 0x09 and 0xFF, each with a length byte equal to 1 + the
number of its value bytes; read back as AD structures it yields exactly these
three, with nothing left over. -/
theorem C15_payload_structures (sdk : Sdk) (stk : Stack) (f : Nat) (w : World) :
    ending (set_adv_data_with_mfg_data sdk stk f) w ≠ Res.fault ∧
    (payloads (issued (set_adv_data_with_mfg_data sdk stk f) w)).map List.length = [20] ∧
    20 ≤ 31 ∧
    payloads (issued (set_adv_data_with_mfg_data sdk stk f) w)
      = [ad_structure 0x01 [0x06]
          ++ ad_structure 0x09 ("fanbandble".toList.map Char.toNat)
          ++ ad_structure 0xFF [0x77, 0x00, f]] ∧
    (payloads (issued (set_adv_data_with_mfg_data sdk stk f) w)).map parse_ad
      = [some [(0x01, [0x06]), (0x09, "fanbandble".toList.map Char.toNat),
          (0xFF, [0x77, 0x00, f])]] := by
  refine ⟨?_, ?_, by decide, ?_, ?_⟩
  · simp only [ending, set_adv_data_run]
    split_ifs <;> simp
  · rw [issued_set_adv_data]; rfl
  · rw [issued_set_adv_data]; rfl
  · rw [issued_set_adv_data]; rfl

/-! ## C16, C17: handlers that issue nothing -/

/-- C16: for every connection-opened event and every prior state, the handler
ends normally without issuing a command, sets `conn_handle` to the event's
connection and the timer to pending with counter 0, and leaves the
advertising-set handle alone.  So when a handle `h1` was opened `k < 30` ticks
earlier, the delay restarts: the next 29 ticks issue nothing and the 30th
issues the request on the newly opened handle. -/
theorem C16_opened_arms_timer (sdk : Sdk) (stk : Stack) (conn b : Nat) (w : World) :
    sl_bt_on_event sdk stk (Event.connection_opened conn b) w
      = (Res.ok (), ⟨⟨w.app.advertising_set_handle, conn, true, 0⟩, w.log⟩) ∧
    issued (sl_bt_on_event sdk stk (Event.connection_opened conn b)) w = [] ∧
    ∀ (h1 b1 : Nat) (k : Fin 30),
      issued (run sdk stk
          (Input.event (Event.connection_opened h1 b1) ::
            (List.replicate k Input.tick ++
              Input.event (Event.connection_opened conn b) :: List.replicate 29 Input.tick))) w
        = [] ∧
      issued (app_process_action sdk stk) (after (run sdk stk
          (Input.event (Event.connection_opened h1 b1) ::
            (List.replicate k Input.tick ++
              Input.event (Event.connection_opened conn b) :: List.replicate 29 Input.tick))) w)
        = [Cmd.sm_increase_security conn] := by
  obtain ⟨⟨a, h0, p, c⟩, l⟩ := w
  refine ⟨rfl, ?_, fun h1 b1 k => ?_⟩
  · simp [issued, opened_run]
  · have hrun : run sdk stk
        (Input.event (Event.connection_opened h1 b1) ::
          (List.replicate k Input.tick ++
            Input.event (Event.connection_opened conn b) :: List.replicate 29 Input.tick))
        ⟨⟨a, h0, p, c⟩, l⟩ = (Res.ok (), ⟨⟨a, conn, true, 29⟩, l⟩) := by
      rw [← List.cons_append, run_append]
      unfold M.bind
      rw [run_opened_ticks sdk stk h1 b1 a h0 c p l k k.isLt]
      exact run_opened_ticks sdk stk conn b a h1 k true l 29 (by omega)
    simp only [issued, after, hrun, tick_cases]
    split_ifs <;> simp_all

/-- C17: for every bonded event and every event identifier without a case of
its own, in every state, the handler ends normally, issues no command and
leaves the whole state as it was. -/
theorem C17_bonded_and_default_do_nothing (sdk : Sdk) (stk : Stack)
    (conn bonding mode id : Nat) (w : World) :
    sl_bt_on_event sdk stk (Event.sm_bonded conn bonding mode) w = (Res.ok (), w) ∧
    issued (sl_bt_on_event sdk stk (Event.sm_bonded conn bonding mode)) w = [] ∧
    sl_bt_on_event sdk stk (Event.other id) w = (Res.ok (), w) ∧
    issued (sl_bt_on_event sdk stk (Event.other id)) w = [] := by
  refine ⟨rfl, ?_, rfl, ?_⟩ <;> simp [issued, sl_bt_on_event, pure_apply]

/-! ## C12: fail-fast -/

theorem failFast_split (sdk : Sdk) (stk : Stack) (r : Res Unit) (pre : List Cmd) :
    ∀ (l cs : List Cmd) (c : Cmd) (post : List Cmd), FailFast sdk stk r l cs →
      cs = pre ++ c :: post → stk.status (l ++ pre) c ≠ sdk.SL_STATUS_OK →
      post = [] ∧ r = Res.halted := by
  induction pre with
  | nil =>
    intro l cs c post hff hcs hfail
    subst hcs
    simp only [List.append_nil] at hfail
    simpa [FailFast, hfail] using hff
  | cons p pre ih =>
    intro l cs c post hff hcs hfail
    subst hcs
    simp only [List.cons_append, FailFast] at hff
    split_ifs at hff with hp
    · exact ih (l ++ [p]) _ c post hff rfl (by simpa using hfail)
    · simp at hff

/-- Every delivery is fail-fast along the commands it issues. -/
theorem step_failFast (sdk : Sdk) (stk : Stack) (i : Input) (w : World) :
    FailFast sdk stk (ending (step sdk stk i) w) w.log (issued (step sdk stk i) w) := by
  obtain ⟨⟨a, h, p, c⟩, l⟩ := w
  cases i with
  | tick =>
    simp only [issued, ending, step, tick_cases]
    split_ifs <;> simp_all [FailFast]
  | event e =>
    cases e
    all_goals simp only [issued, ending, step, sl_bt_on_event]
    all_goals
      repeat' first
        | split_ifs
        | simp only [bind_apply, pure_apply, M.bind, set_adv_data_run, getApp, setApp, command,
            app_assert_status, sl_bt_advertiser_create_set, List.append_assoc,
            List.singleton_append, List.cons_append, List.nil_append, List.drop_left]
    all_goals simp_all [FailFast]

/-- A delivery that halts has not changed `bonding_pending`. -/
theorem step_halted_pending (sdk : Sdk) (stk : Stack) (i : Input) (w : World)
    (hh : ending (step sdk stk i) w = Res.halted) :
    (after (step sdk stk i) w).app.bonding_pending = w.app.bonding_pending := by
  obtain ⟨⟨a, h, p, c⟩, l⟩ := w
  cases i with
  | tick =>
    simp only [ending, after, step, tick_cases] at hh ⊢
    split_ifs at hh ⊢
    simp_all
  | event e =>
    cases e
    all_goals simp only [ending, after, step, sl_bt_on_event] at hh ⊢
    all_goals
      repeat' first
        | split_ifs at hh ⊢
        | simp only [bind_apply, pure_apply, M.bind, set_adv_data_run, getApp, setApp, command,
            app_assert_status, sl_bt_advertiser_create_set] at hh ⊢
    all_goals simp_all

/-- C12: fail-fast.  For every delivery (each stack event and the tick) in
every state: when a command it issues is answered with a non-success status, no
command follows that one, the delivery ends halted, `bonding_pending` is as it
was before the delivery, and nothing that is delivered afterwards runs, so
the failed command is not issued again.  For the tick this is the failed
security-increase request: not retried, `bonding_pending` not cleared. -/
theorem C12_fail_fast (sdk : Sdk) (stk : Stack) (i : Input) (w : World)
    (pre : List Cmd) (c : Cmd) (post : List Cmd)
    (hsplit : issued (step sdk stk i) w = pre ++ c :: post)
    (hfail : stk.status (w.log ++ pre) c ≠ sdk.SL_STATUS_OK) :
    post = [] ∧
    ending (step sdk stk i) w = Res.halted ∧
    (after (step sdk stk i) w).app.bonding_pending = w.app.bonding_pending ∧
    ∀ rest : List Input,
      run sdk stk (i :: rest) w = step sdk stk i w ∧
      issued (run sdk stk (i :: rest)) w = pre ++ [c] := by
  have hff := failFast_split sdk stk _ pre w.log _ c post (step_failFast sdk stk i w) hsplit hfail
  obtain ⟨hpost, hhalt⟩ := hff
  have hrun : ∀ rest : List Input, run sdk stk (i :: rest) w = step sdk stk i w := by
    intro rest
    rw [run_cons]
    unfold M.bind
    cases hs : step sdk stk i w with
    | mk r w1 =>
      have hr : r = Res.halted := by simpa [ending, hs] using hhalt
      subst hr
      rfl
  refine ⟨hpost, hhalt, step_halted_pending sdk stk i w hhalt, fun rest => ⟨hrun rest, ?_⟩⟩
  have hi : issued (run sdk stk (i :: rest)) w = issued (step sdk stk i) w := by
    simp only [issued, hrun rest]
  rw [hi, hsplit, hpost]

/-- C12 on the always-failing stack, at the tick that follows opening handle 1
and 29 ticks: the request is issued, fails, and the flag stays set. -/
theorem C12_fail_fast_witness :
    issued (step sdk0 failStack Input.tick) ⟨⟨0xff, 1, true, 29⟩, []⟩
      = [] ++ Cmd.sm_increase_security 1 :: [] ∧
    failStack.status ((⟨⟨0xff, 1, true, 29⟩, []⟩ : World).log ++ [])
      (Cmd.sm_increase_security 1) ≠ sdk0.SL_STATUS_OK ∧
    ending (step sdk0 failStack Input.tick) ⟨⟨0xff, 1, true, 29⟩, []⟩ = Res.halted ∧
    (after (step sdk0 failStack Input.tick) ⟨⟨0xff, 1, true, 29⟩, []⟩).app.bonding_pending
      = true :=
  ⟨by decide, by decide,
    (C12_fail_fast sdk0 failStack Input.tick ⟨⟨0xff, 1, true, 29⟩, []⟩ []
      (Cmd.sm_increase_security 1) [] (by decide) (by decide)).2.1,
    (C12_fail_fast sdk0 failStack Input.tick ⟨⟨0xff, 1, true, 29⟩, []⟩ []
      (Cmd.sm_increase_security 1) [] (by decide) (by decide)).2.2.1⟩

/-! ## C18, C19: reachable states -/

theorem armed_snoc (is : List Input) (i : Input) :
    armed (is ++ [i]) =
      match i with
      | Input.event (Event.connection_opened h _) => some (h, 0)
      | Input.tick => (armed is).map (fun p => (p.1, p.2 + 1))
      | _ => armed is := by
  simp only [armed, List.foldl_append, List.foldl_cons, List.foldl_nil]

theorem opened_events_snoc (is : List Input) (i : Input) :
    opened_events (is ++ [i]) =
      opened_events is +
        match i with
        | Input.event (Event.connection_opened _ _) => 1
        | _ => 0 := by
  simp only [opened_events, List.countP_append, List.countP_cons, List.countP_nil]
  cases i with
  | tick => simp
  | event e => cases e <;> simp

theorem security_requests_append (l cs : List Cmd) :
    security_requests (l ++ cs) = security_requests l ++ security_requests cs := by
  simp [security_requests, List.filterMap_append]

theorem run_single (sdk : Sdk) (stk : Stack) (i : Input) (w : World) :
    run sdk stk [i] w = step sdk stk i w := by
  rw [run_cons]
  unfold M.bind
  cases hs : step sdk stk i w with
  | mk r w1 => cases r <;> rfl

/-- Confirm events, all commands succeeding. -/
theorem confirm_run (sdk : Sdk) (stk : Stack) (conn x : Nat) (w : World) (hok : stk.AllOk sdk) :
    sl_bt_on_event sdk stk (Event.sm_confirm_bonding conn x) w
      = (Res.ok (), { w with log := w.log ++ [Cmd.sm_bonding_confirm conn 1] }) ∧
    sl_bt_on_event sdk stk (Event.sm_confirm_passkey conn x) w
      = (Res.ok (), { w with log := w.log ++ [Cmd.sm_passkey_confirm conn 1] }) := by
  constructor <;>
    simp [sl_bt_on_event, bind_apply, M.bind, hok _ _, command, app_assert_status]

/-- With all commands succeeding, a delivery ends normally and keeps the trace
invariant. -/
theorem step_inv (sdk : Sdk) (stk : Stack) (hok : stk.AllOk sdk) (is : List Input) (i : Input)
    (w : World) (hinv : TraceInv is w) :
    ∃ w1, step sdk stk i w = (Res.ok (), w1) ∧ TraceInv (is ++ [i]) w1 := by
  obtain ⟨⟨a, h, p, c⟩, l⟩ := w
  simp only [TraceInv] at hinv
  obtain ⟨h1, h2, h3⟩ := hinv
  cases i with
  | tick =>
    simp only [step, tick_cases, hok _ _, if_true]
    cases p with
    | false =>
      refine ⟨_, rfl, ?_⟩
      simp only [TraceInv, armed_snoc, opened_events_snoc]
      simp_all
    | true =>
      have h2 : c < 30 ∧ armed is = some (h, c) := by simpa using h2
      have hm : (c + 1) % 4294967296 = c + 1 := Nat.mod_eq_of_lt (by omega)
      simp only [hm, if_true]
      by_cases hc : 30 ≤ c + 1
      · rw [if_pos hc]
        refine ⟨_, rfl, ?_⟩
        simp only [TraceInv, armed_snoc, opened_events_snoc, security_requests_append]
        simp [security_requests] at h3 ⊢
        omega
      · rw [if_neg hc]
        refine ⟨_, rfl, ?_⟩
        simp only [TraceInv, armed_snoc, opened_events_snoc, h2.2]
        simp at h3 ⊢
        omega
  | event e =>
    cases e with
    | system_boot =>
      refine ⟨_, boot_run sdk stk a h c p l hok, ?_⟩
      simp only [TraceInv, armed_snoc, opened_events_snoc, security_requests_append]
      simp [security_requests, set_data_cmd] at h3 ⊢
      exact ⟨h1, h2, h3⟩
    | connection_opened conn b =>
      refine ⟨_, opened_run sdk stk conn b a h c p l, ?_⟩
      simp only [TraceInv, armed_snoc, opened_events_snoc]
      simp at h3 ⊢
      omega
    | connection_closed r =>
      refine ⟨_, closed_run sdk stk r _ hok, ?_⟩
      simp only [TraceInv, armed_snoc, opened_events_snoc, security_requests_append]
      simp [security_requests, set_data_cmd] at h3 ⊢
      exact ⟨h1, h2, h3⟩
    | sm_bonding_failed conn r =>
      refine ⟨_, failed_run sdk stk conn r _ hok, ?_⟩
      simp only [TraceInv, armed_snoc, opened_events_snoc, security_requests_append]
      by_cases hr : (r = 0x1006 ∨ r = 0x1208 ∨ r = 0x1205 ∨ r = 0x120B) <;>
        simp [hr, security_requests, set_data_cmd] at h3 ⊢ <;> exact ⟨h1, h2, h3⟩
    | sm_bonded conn b m =>
      refine ⟨_, rfl, ?_⟩
      simp only [TraceInv, armed_snoc, opened_events_snoc]
      exact ⟨h1, h2, by simpa using h3⟩
    | sm_confirm_bonding conn x =>
      refine ⟨_, (confirm_run sdk stk conn x _ hok).1, ?_⟩
      simp only [TraceInv, armed_snoc, opened_events_snoc, security_requests_append]
      simp [security_requests] at h3 ⊢
      exact ⟨h1, h2, h3⟩
    | sm_confirm_passkey conn x =>
      refine ⟨_, (confirm_run sdk stk conn x _ hok).2, ?_⟩
      simp only [TraceInv, armed_snoc, opened_events_snoc, security_requests_append]
      simp [security_requests] at h3 ⊢
      exact ⟨h1, h2, h3⟩
    | other id =>
      refine ⟨_, rfl, ?_⟩
      simp only [TraceInv, armed_snoc, opened_events_snoc]
      exact ⟨h1, h2, by simpa using h3⟩

/-- With all commands succeeding, every trace from reset ends normally in a
world that satisfies the trace invariant. -/
theorem reach (sdk : Sdk) (stk : Stack) (hok : stk.AllOk sdk) (is : List Input) :
    ∃ w, run sdk stk is World.init = (Res.ok (), w) ∧ TraceInv is w := by
  induction is using List.reverseRecOn with
  | nil =>
    refine ⟨World.init, rfl, ?_⟩
    simp [TraceInv, World.init, AppState.init, security_requests, opened_events]
  | append_singleton is i ih =>
    obtain ⟨w, hrun, hinv⟩ := ih
    obtain ⟨w1, hstep, hinv1⟩ := step_inv sdk stk hok is i w hinv
    refine ⟨w1, ?_, hinv1⟩
    rw [run_append]
    unfold M.bind
    rw [hrun]
    simp only
    rw [run_single, hstep]

/-- No event handler issues a security-increase request, whatever the stack
answers. -/
theorem event_no_request (sdk : Sdk) (stk : Stack) (e : Event) (w : World) :
    security_requests (issued (sl_bt_on_event sdk stk e) w) = [] := by
  obtain ⟨⟨a, h, p, c⟩, l⟩ := w
  cases e
  all_goals simp only [issued, sl_bt_on_event]
  all_goals
    repeat' first
      | split_ifs
      | simp only [bind_apply, pure_apply, M.bind, set_adv_data_run, getApp, setApp, command,
          app_assert_status, sl_bt_advertiser_create_set, List.append_assoc,
          List.singleton_append, List.cons_append, List.nil_append, List.drop_left]
  all_goals simp [security_requests, set_data_cmd]

/-- C18: with all commands succeeding, every finite sequence of stack events
and `app_process_action` invocations from the reset state ends normally in a
state with `bonding_delay_counter <= 30`, and with `bonding_delay_counter < 30`
unless `bonding_pending` is false; so incrementing the 32-bit counter there
does not wrap. -/
theorem C18_counter_bounded (sdk : Sdk) (stk : Stack) (is : List Input)
    (hok : stk.AllOk sdk) :
    ending (run sdk stk is) World.init = Res.ok () ∧
    (after (run sdk stk is) World.init).app.bonding_delay_counter ≤ 30 ∧
    ((after (run sdk stk is) World.init).app.bonding_pending = false ∨
      (after (run sdk stk is) World.init).app.bonding_delay_counter < 30) ∧
    ((after (run sdk stk is) World.init).app.bonding_delay_counter + 1) % 4294967296
      = (after (run sdk stk is) World.init).app.bonding_delay_counter + 1 := by
  obtain ⟨w, hrun, h1, h2, _⟩ := reach sdk stk hok is
  simp only [ending, after, hrun]
  refine ⟨trivial, h1, ?_, Nat.mod_eq_of_lt (by omega)⟩
  rcases h2 with h2 | h2
  · exact Or.inl h2
  · exact Or.inr h2.1

/-- C18 on boot, opening handle 1 and 31 ticks, on the always-succeeding
stack. -/
theorem C18_counter_bounded_witness :
    okStack.AllOk sdk0 ∧
    (after (run sdk0 okStack
        (Input.event Event.system_boot :: Input.event (Event.connection_opened 1 0) ::
          List.replicate 31 Input.tick)) World.init).app.bonding_delay_counter ≤ 30 :=
  ⟨okStack_allOk,
    (C18_counter_bounded sdk0 okStack
      (Input.event Event.system_boot :: Input.event (Event.connection_opened 1 0) ::
        List.replicate 31 Input.tick) okStack_allOk).2.1⟩

/-- C19: with nothing pending `app_process_action` ends normally, issues no
command and leaves the whole state as it was, on any stack; no event handler
issues a security-increase request.  So, with all commands succeeding, in
every trace from the reset state the security-increase requests issued are no
more than the connection-opened events delivered, and a tick that issues a
request issues one, on the handle of the most recent connection-opened event,
and is the 30th tick delivered since that event. -/
theorem C19_requests_follow_openings (sdk : Sdk) (stk : Stack) (is : List Input)
    (hok : stk.AllOk sdk) :
    (∀ (stk1 : Stack) (a h c : Nat) (l : List Cmd),
      app_process_action sdk stk1 ⟨⟨a, h, false, c⟩, l⟩
        = (Res.ok (), ⟨⟨a, h, false, c⟩, l⟩)) ∧
    (∀ (stk1 : Stack) (e : Event) (w : World),
      security_requests (issued (sl_bt_on_event sdk stk1 e) w) = []) ∧
    (security_requests (issued (run sdk stk is) World.init)).length ≤ opened_events is ∧
    (issued (app_process_action sdk stk) (after (run sdk stk is) World.init) = [] ∨
      ∃ h : Nat,
        issued (app_process_action sdk stk) (after (run sdk stk is) World.init)
          = [Cmd.sm_increase_security h] ∧
        armed (is ++ [Input.tick]) = some (h, 30)) := by
  obtain ⟨w, hrun, h1, h2, h3⟩ := reach sdk stk hok is
  obtain ⟨⟨a, h, p, c⟩, l⟩ := w
  refine ⟨fun stk1 a h c l => tick_idle sdk stk1 a h c l,
    fun stk1 e w => event_no_request sdk stk1 e w, ?_, ?_⟩
  · simp only [issued, hrun]
    simp only [World.init, List.length_nil, List.drop_zero]
    simp only at h3
    omega
  · simp only [issued, after, hrun, tick_cases, hok _ _, if_true]
    cases p with
    | false => left; simp
    | true =>
      have h2 : c < 30 ∧ armed is = some (h, c) := by simpa using h2
      have hm : (c + 1) % 4294967296 = c + 1 := Nat.mod_eq_of_lt (by omega)
      simp only [hm, if_true]
      by_cases hc : 30 ≤ c + 1
      · right
        refine ⟨h, ?_, ?_⟩
        · simp [hc]
        · have hc29 : c = 29 := by omega
          simp [armed_snoc, h2.2, hc29]
      · left
        simp [hc]

/-- C19 on boot, opening handle 1 and 29 ticks: the next tick issues the
request for handle 1 and is the 30th since the opening. -/
theorem C19_requests_follow_openings_witness :
    okStack.AllOk sdk0 ∧
    (security_requests (issued (run sdk0 okStack
        (Input.event Event.system_boot :: Input.event (Event.connection_opened 1 0) ::
          List.replicate 29 Input.tick)) World.init)).length
      ≤ opened_events
        (Input.event Event.system_boot :: Input.event (Event.connection_opened 1 0) ::
          List.replicate 29 Input.tick) :=
  ⟨okStack_allOk,
    (C19_requests_follow_openings sdk0 okStack
      (Input.event Event.system_boot :: Input.event (Event.connection_opened 1 0) ::
        List.replicate 29 Input.tick) okStack_allOk).2.2.1⟩

end BleOnly
